import Mathlib

/-!
# Verification of the blog publisher scripts

Shallow embedding of the three publisher variants of this repository:

* `Publish`   — src/scripts/publish.py (directory-walk variant with
  categories, tags, image upload with skip-if-exists, featured image).
* `RootVar`   — src/publish_to_wp.py (flat-file variant).
* `Strict`    — src/scripts/publish_to_wp.py (flat-file variant that
  requires a slug and skips posts without one).

The remote CMS HTTP API, YAML parsing, slug generation, and Markdown
rendering are external collaborators; where a definition models one of
them rather than code of this repository, its doc comment says so.
-/

set_option maxRecDepth 10000

namespace Blog

/-! ## Character-list string utilities (faithful to the Python semantics) -/

/-- First index (leftmost) at which `sep` occurs in `xs`, as Python
`str.find` would report for a non-empty separator. -/
def findOcc (sep : List Char) : List Char → Option Nat
  | [] => if sep.isPrefixOf ([] : List Char) then some 0 else none
  | c :: cs =>
      if sep.isPrefixOf (c :: cs) then some 0
      else (findOcc sep cs).map (· + 1)

/-- Python `str.split(sep, maxsplit)` for a non-empty separator:
split at the leftmost occurrence, at most `max` times. -/
def pySplit (sep : List Char) : Nat → List Char → List (List Char)
  | 0, xs => [xs]
  | m + 1, xs =>
      match findOcc sep xs with
      | none => [xs]
      | some i => xs.take i :: pySplit sep m (xs.drop (i + sep.length))

/-- Number of non-overlapping occurrences of `sep` in `xs`
(as Python `str.count` for a non-empty separator). -/
def countOcc (sep xs : List Char) : Nat :=
  (pySplit sep xs.length xs).length - 1

/-- The frontmatter delimiter. -/
def dashes : List Char := ['-', '-', '-']

/-- Python `s.lower()` (ASCII-relevant part). -/
def lowerStr (s : String) : String := ⟨s.data.map Char.toLower⟩

/-- `needle` occurs as a contiguous sublist of `hay`. -/
def listInfix (needle hay : List Char) : Bool :=
  (List.range (hay.length + 1)).any (fun i => needle.isPrefixOf (hay.drop i))

/-- Python `needle in hay`, case-insensitively (used to model the remote
search endpoints, which match case-insensitive substrings). -/
def strContains (hay needle : String) : Bool :=
  listInfix (lowerStr needle).data (lowerStr hay).data

/-- Python `s.endswith(suf)`. -/
def strEndsWith (s suf : String) : Bool := suf.data.isSuffixOf s.data

/-- Python `os.path.basename`: the part after the last slash. -/
def basename (p : String) : String :=
  ⟨p.data.foldl (fun acc c => if c = '/' then [] else acc ++ [c]) []⟩

/-- Python `os.path.dirname`: the part before the last slash
(empty when there is no slash). -/
def dirname (p : String) : String :=
  ⟨((p.data.reverse.dropWhile (fun c => c ≠ '/')).drop 1).reverse⟩

/-- Name of the directory containing path `p`. -/
def containingDirName (p : String) : String := basename (dirname p)

/-- Python `Path(p).stem`: basename without its final extension
(a lone leading dot is kept, as in `pathlib`). -/
def stem (p : String) : String :=
  let b := (basename p).data
  match (b.reverse.dropWhile (fun c => c ≠ '.')) with
  | [] => ⟨b⟩
  | _ :: rest => if rest = [] then ⟨b⟩ else ⟨rest.reverse⟩

/-- Python `s.strip()`. -/
def strip (s : String) : String :=
  ⟨((s.data.dropWhile Char.isWhitespace).reverse.dropWhile
      Char.isWhitespace).reverse⟩

/-- Core of Python `s.replace(pat, rep)` for a non-empty pattern `p :: ps`:
replace every non-overlapping occurrence, left to right.  The fuel starts
at the length of the scanned list, which every step strictly consumes, so
the fuel never runs out on the intended calls. -/
def replaceCore (p : Char) (ps rep : List Char) : Nat → List Char → List Char
  | 0 => fun xs => xs
  | fuel + 1 => fun xs =>
      match xs with
      | [] => []
      | c :: cs =>
          if (p :: ps).isPrefixOf (c :: cs) then
            rep ++ replaceCore p ps rep fuel (cs.drop ps.length)
          else
            c :: replaceCore p ps rep fuel cs

/-- Python `s.replace(pat, rep)` (identity for an empty pattern, which the
scripts never use: the replaced tokens are image filenames). -/
def replaceStr (s pat rep : String) : String :=
  match pat.data with
  | [] => s
  | p :: ps => ⟨replaceCore p ps rep.data s.data.length s.data⟩

/-- Python truthiness of an optional string (`None` and `""` are falsy). -/
def truthyS : Option String → Bool
  | none => false
  | some s => s ≠ ""

/-- Python truthiness of an optional integer (`None` and `0` are falsy). -/
def truthyN (o : Option Nat) : Bool := o.getD 0 ≠ 0

/-- Models the external `slugify` library on ASCII input: lowercase,
alphanumeric runs joined by single hyphens. -/
def slugify (s : String) : String :=
  let cleaned := s.data.map fun c =>
    let lc := c.toLower
    if lc.isAlphanum then lc else ' '
  ⟨List.intercalate ['-'] ((splitWs cleaned).filter (· ≠ []))⟩
where
  /-- Split a character list on spaces. -/
  splitWs : List Char → List (List Char)
    | [] => [[]]
    | c :: cs =>
        let r := splitWs cs
        if c = ' ' then [] :: r
        else
          match r with
          | [] => [[c]]
          | g :: gs => (c :: g) :: gs

/-! ## Remote data model

The remote CMS is an external collaborator; `RemoteState` models the
collections its REST API exposes, and the `search...` functions model its
`?search=` endpoints (case-insensitive substring search, as the spec notes
for media and as WordPress implements for terms). -/

/-- A remote taxonomy term (category or tag). -/
structure Term where
  id : Nat
  name : String
  description : String
deriving DecidableEq

/-- A remote media item. -/
structure Media where
  id : Nat
  title : String
  sourceUrl : String
deriving DecidableEq

/-- A remote post (only the fields the reconciliation logic reads). -/
structure WPost where
  id : Nat
  slug : String
deriving DecidableEq

/-- The remote system's state. `nextId` models remote id assignment. -/
structure RemoteState where
  categories : List Term
  tags : List Term
  media : List Media
  posts : List WPost
  nextId : Nat
deriving DecidableEq

/-- Models `GET {taxonomy}?search={q}`: terms whose name contains `q`
case-insensitively, in stored order. -/
def searchTerms (ts : List Term) (q : String) : List Term :=
  ts.filter fun t => strContains t.name q

/-- Models `GET media?search={q}`: media whose title contains `q`
case-insensitively, in stored order. -/
def searchMediaBy (ms : List Media) (q : String) : List Media :=
  ms.filter fun m => strContains m.title q

/-- Models `GET posts?slug={slug}`: the dedicated slug query filters by
exact slug equality. -/
def postsBySlug (ps : List WPost) (slug : String) : List WPost :=
  ps.filter fun p => p.slug == slug

/-- A post request body as assembled by the scripts.  `none` in an
optional field means the corresponding key is absent from the JSON dict. -/
structure PostData where
  title : String
  slug : String
  content : String
  status : String
  categories : Option (List Nat)
  tagIds : Option (List Nat)
  featuredMedia : Option Nat
deriving DecidableEq

/-- A write request sent to the remote API. -/
inductive Req where
  | createTerm (taxonomy name description : String)
  | updateTerm (taxonomy : String) (id : Nat)
  | uploadMedia (filename contentType : String)
  | setAltText (id : Nat) (alt : String)
  | createPost (body : PostData)
  | updatePost (id : Nat) (body : PostData)
deriving DecidableEq

/-- Number of create-post requests for slug `s` in a request trace. -/
def createsFor (s : String) (reqs : List Req) : Nat :=
  reqs.countP fun r =>
    match r with
    | .createPost body => body.slug == s
    | _ => false

/-- The content type all three variants attach to a media upload:
`image/jpeg` for filenames ending in `.jpg`, `image/png` otherwise
(publish_to_wp.py line 48, scripts/publish.py line 196,
scripts/publish_to_wp.py line 34). -/
def contentTypeFor (fname : String) : String :=
  if strEndsWith fname ".jpg" then "image/jpeg" else "image/png"

/-- Frontmatter mapping as returned by the external YAML parser; `none`
means the key is absent.  Fields cover what the flat-file variants read. -/
structure YamlMeta where
  title : Option String := none
  slug : Option String := none
  status : Option String := none
  ptype : Option String := none
  featured_image : Option String := none
  cats : Option (List String) := none
  tagNames : Option (List String) := none
deriving DecidableEq

/-- Python error raised by the scripts. -/
inductive PyErr where
  /-- `ValueError: not enough values to unpack` from the three-way split. -/
  | valueError
  /-- `FileNotFoundError` from opening a missing image file. -/
  | fileNotFound
deriving DecidableEq

/-- Frontmatter extraction shared by src/publish_to_wp.py (lines 69-76)
and src/scripts/publish_to_wp.py (lines 46-52): if the text starts with
"---", split on "---" at most twice and unpack into three parts (raising
`ValueError` when there are fewer); otherwise there is no frontmatter. -/
def extractFM (text : String) : Except PyErr (Option String × String) :=
  if dashes.isPrefixOf text.data then
    match pySplit dashes 2 text.data with
    | [_, fm, content] => .ok (some ⟨fm⟩, ⟨content⟩)
    | _ => .error .valueError
  else
    .ok (none, text)

/-! ## src/scripts/publish.py (directory-walk variant) -/

namespace Publish

/-- A category or tag entry in the frontmatter: a bare string or a
mapping with name, description and (categories only) icon. -/
inductive CatSpec where
  | plain (s : String)
  | obj (name description : String) (icon : Option String)
deriving DecidableEq

/-- Name, description and icon read from a category spec
(`ensure_category` lines 71-78). -/
def catFields : CatSpec → String × String × Option String
  | .plain s => (s, "", none)
  | .obj n d i => (n, d, i)

/-- Frontmatter of one post as `frontmatter.load` exposes it (external
parser); `post_md.get(key, default)` becomes `Option.getD`. -/
structure Meta where
  title : Option String := none
  slug : Option String := none
  status : Option String := none
  featured_image : Option String := none
  featured_alt : Option String := none
  categories : List CatSpec := []
  tagSpecs : List CatSpec := []
deriving DecidableEq

/-- `ensure_category` (lines 69-116): search categories by name; if any
result, reuse the first result's id, posting an update when a non-empty
description differs or an icon is given; otherwise create the term. -/
def ensure_category (st : RemoteState) (cat : CatSpec) :
    Nat × RemoteState × List Req :=
  let (name, description, icon) := catFields cat
  match searchTerms st.categories name with
  | t :: _ =>
      let updDesc := description ≠ "" && t.description ≠ description
      let updIcon := icon.isSome
      if updDesc || updIcon then
        let cats := st.categories.map fun u =>
          if u.id = t.id && updDesc then { u with description := description }
          else u
        (t.id, { st with categories := cats }, [Req.updateTerm "categories" t.id])
      else
        (t.id, st, [])
  | [] =>
      let t : Term := ⟨st.nextId, name, description⟩
      (st.nextId,
       { st with categories := st.categories ++ [t], nextId := st.nextId + 1 },
       [Req.createTerm "categories" name description])

/-- `ensure_tag` (lines 119-152): same lookup for tags, updating only the
description. -/
def ensure_tag (st : RemoteState) (tag : CatSpec) :
    Nat × RemoteState × List Req :=
  let (name, description, _) := catFields tag
  match searchTerms st.tags name with
  | t :: _ =>
      if description ≠ "" && t.description ≠ description then
        let ts := st.tags.map fun u =>
          if u.id = t.id then { u with description := description } else u
        (t.id, { st with tags := ts }, [Req.updateTerm "tags" t.id])
      else
        (t.id, st, [])
  | [] =>
      let t : Term := ⟨st.nextId, name, description⟩
      (st.nextId,
       { st with tags := st.tags ++ [t], nextId := st.nextId + 1 },
       [Req.createTerm "tags" name description])

/-- `wp_find_existing_image` (lines 158-168): search media by filename
and take the first result, if any. -/
def wp_find_existing_image (st : RemoteState) (fname : String) : Option Media :=
  (searchMediaBy st.media fname).head?

/-- `upload_image` (lines 171-203): reuse the first media search hit
without uploading; otherwise read the file (a missing file is caught and
yields `(None, None)`) and upload it.  `fs` is the set of existing local
files; the remote-assigned URL is modelled as `media/<filename>`. -/
def upload_image (st : RemoteState) (fs : List String) (image_path : String) :
    Option (Nat × String) × RemoteState × List Req :=
  let fname := basename image_path
  match wp_find_existing_image st fname with
  | some m => (some (m.id, m.sourceUrl), st, [])
  | none =>
      if image_path ∈ fs then
        let url := "media/" ++ fname
        let m : Media := ⟨st.nextId, fname, url⟩
        (some (st.nextId, url),
         { st with media := st.media ++ [m], nextId := st.nextId + 1 },
         [Req.uploadMedia fname (contentTypeFor fname)])
      else
        (none, st, [])

/-- `find_existing_post` (lines 223-231): query posts by slug, take the
first result's id, if any. -/
def find_existing_post (st : RemoteState) (slug : String) : Option Nat :=
  ((postsBySlug st.posts slug).head?).map (·.id)

/-- The filename filter of the image loop (line 307). -/
def isImage (f : String) : Bool :=
  let l := lowerStr f
  strEndsWith l ".png" || strEndsWith l ".jpg" || strEndsWith l ".jpeg"

/-- The title/slug/status defaults of the loader (lines 279-281). -/
def loadFields (pm : Meta) (root : String) : String × String × String :=
  (pm.title.getD "Untitled", pm.slug.getD (basename root), pm.status.getD "draft")

/-- The image loop (lines 306-317): for each image file in the directory,
resolve it with `upload_image`; `(None, None)` results are skipped with
`continue`; the first resolved image becomes the featured media when none
is set yet; each resolved filename is replaced by its URL in the body. -/
def uploadLoop (fs : List String) (root : String) :
    RemoteState → Option Nat → String → List String →
      Option Nat × String × RemoteState × List Req
  | st, fmid, raw, [] => (fmid, raw, st, [])
  | st, fmid, raw, img :: rest =>
      if isImage img then
        let u := upload_image st fs (root ++ "/" ++ img)
        match u.1 with
        | none =>
            let k := uploadLoop fs root u.2.1 fmid raw rest
            (k.1, k.2.1, k.2.2.1, u.2.2 ++ k.2.2.2)
        | some (mid, url) =>
            let fmid1 := if fmid.isNone then some mid else fmid
            let k := uploadLoop fs root u.2.1 fmid1 (replaceStr raw img url) rest
            (k.1, k.2.1, k.2.2.1, u.2.2 ++ k.2.2.2)
      else
        uploadLoop fs root st fmid raw rest

/-- Resolve the categories of a post in order (line 325). -/
def ensureCats (st : RemoteState) : List CatSpec → List Nat × RemoteState × List Req
  | [] => ([], st, [])
  | c :: cs =>
      let e := ensure_category st c
      let r := ensureCats e.2.1 cs
      (e.1 :: r.1, r.2.1, e.2.2 ++ r.2.2)

/-- Resolve the tags of a post in order (line 326). -/
def ensureTags (st : RemoteState) : List CatSpec → List Nat × RemoteState × List Req
  | [] => ([], st, [])
  | t :: ts =>
      let e := ensure_tag st t
      let r := ensureTags e.2.1 ts
      (e.1 :: r.1, r.2.1, e.2.2 ++ r.2.2)

/-- One post directory of the content tree: its path, parsed frontmatter,
raw Markdown body, and directory listing. -/
structure Record where
  root : String
  pm : Meta
  content : String
  dirFiles : List String
deriving DecidableEq

/-- The featured-image step of `main` (lines 290-301): when the
frontmatter declares a (truthy) featured image, resolve it from the post
directory; when the resolved id and the declared alt text are truthy,
issue a follow-up alt-text request. -/
def resolveFeatured (fs : List String) (rec : Record) (st : RemoteState) :
    Option Nat × RemoteState × List Req :=
  if truthyS rec.pm.featured_image then
    let fi := rec.pm.featured_image.getD ""
    let u := upload_image st fs (rec.root ++ "/" ++ fi)
    let fmid := u.1.map (·.1)
    let ra :=
      if truthyN fmid && truthyS rec.pm.featured_alt then
        [Req.setAltText (fmid.getD 0) (rec.pm.featured_alt.getD "")]
      else []
    (fmid, u.2.1, u.2.2 ++ ra)
  else (none, st, [])

/-- The `post_data` dict (lines 331-342): title, slug, content, status,
categories and tags are always present; `featured_media` is added only
when the resolved id is truthy. -/
def mkPostData (title slug status html : String) (catIds tagIds : List Nat)
    (fmid : Option Nat) : PostData :=
  let base : PostData :=
    { title := title, slug := slug, content := html, status := status,
      categories := some catIds, tagIds := some tagIds, featuredMedia := none }
  if truthyN fmid then { base with featuredMedia := fmid } else base

/-- The per-post pipeline of `main` up to the assembled `post_data`
(lines 279-342): defaults, featured image, image loop, Markdown rendering
(`render` is the external renderer), category and tag resolution, and the
body dict.  Returns the body, the remote state after the side steps, and
the write requests sent so far. -/
def resolveAll (render : String → String) (fs : List String) (rec : Record)
    (st : RemoteState) : PostData × RemoteState × List Req :=
  let tss := loadFields rec.pm rec.root
  let f := resolveFeatured fs rec st
  let u := uploadLoop fs rec.root f.2.1 f.1 rec.content rec.dirFiles
  let c := ensureCats u.2.2.1 rec.pm.categories
  let t := ensureTags c.2.1 rec.pm.tagSpecs
  (mkPostData tss.1 tss.2.1 tss.2.2 (render u.2.1) c.1 t.1 u.1,
   t.2.1, f.2.2 ++ u.2.2.2 ++ c.2.2 ++ t.2.2)

/-- The reconciliation tail of `main` (lines 347-362): look the post up
by slug and update it, or create it.  A create makes the remote assign a
fresh id to a post with this slug. -/
def processPost (render : String → String) (fs : List String) (rec : Record)
    (st : RemoteState) : RemoteState × List Req :=
  let r := resolveAll render fs rec st
  match find_existing_post r.2.1 r.1.slug with
  | some pid => (r.2.1, r.2.2 ++ [Req.updatePost pid r.1])
  | none =>
      ({ r.2.1 with posts := r.2.1.posts ++ [⟨r.2.1.nextId, r.1.slug⟩],
                    nextId := r.2.1.nextId + 1 },
       r.2.2 ++ [Req.createPost r.1])

/-- `main`'s walk over the content tree: process each post directory in
order, threading the remote state. -/
def processSeq (render : String → String) (fs : List String)
    (st : RemoteState) : List Record → RemoteState × List Req
  | [] => (st, [])
  | r :: rs =>
      let p := processPost render fs r st
      let q := processSeq render fs p.1 rs
      (q.1, p.2 ++ q.2)

/-- `n` repeated runs of the publisher on the unchanged content tree
`tree`, the remote state persisting between runs. -/
def runs (render : String → String) (fs : List String) (tree : List Record) :
    Nat → RemoteState → RemoteState × List Req
  | 0, st => (st, [])
  | n + 1, st =>
      let p := processSeq render fs st tree
      let q := runs render fs tree n p.1
      (q.1, p.2 ++ q.2)

end Publish

/-! ## src/publish_to_wp.py (flat-file variant) -/

namespace RootVar

/-- `wp_get_or_create_term` (lines 55-59): search the taxonomy by name
and reuse the first result's id; otherwise create a term with only a
name.  The taxonomy endpoint is addressed by its string, as in the code. -/
def wp_get_or_create_term (st : RemoteState) (term_name taxonomy : String) :
    Nat × RemoteState × List Req :=
  let coll := if taxonomy == "categories" then st.categories else st.tags
  match searchTerms coll term_name with
  | t :: _ => (t.id, st, [])
  | [] =>
      let t : Term := ⟨st.nextId, term_name, ""⟩
      let st1 :=
        if taxonomy == "categories" then
          { st with categories := st.categories ++ [t], nextId := st.nextId + 1 }
        else
          { st with tags := st.tags ++ [t], nextId := st.nextId + 1 }
      (st.nextId, st1, [Req.createTerm taxonomy term_name ""])

/-- The list comprehensions of lines 92 and 97, in evaluation order. -/
def resolveTerms (taxonomy : String) (st : RemoteState) :
    List String → List Nat × RemoteState × List Req
  | [] => ([], st, [])
  | n :: ns =>
      let (i, st1, r1) := wp_get_or_create_term st n taxonomy
      let (is, st2, r2) := resolveTerms taxonomy st1 ns
      (i :: is, st2, r1 ++ r2)

/-- `wp_upload_media` (lines 43-53): open the file (raising
`FileNotFoundError` when it is missing, which nothing catches) and upload
it unconditionally — this variant never searches for existing media. -/
def wp_upload_media (st : RemoteState) (fs : List String) (image_path : String) :
    Except PyErr (Nat × RemoteState × List Req) :=
  let fname := basename image_path
  if image_path ∈ fs then
    .ok (st.nextId,
         { st with media := st.media ++ [⟨st.nextId, fname, "media/" ++ fname⟩],
                   nextId := st.nextId + 1 },
         [Req.uploadMedia fname (contentTypeFor fname)])
  else
    .error .fileNotFound

/-- The create-or-update tail of `process_md_file` (lines 106-113).  The
`post_type` endpoint is modelled as the single posts collection. -/
def finishPost (st : RemoteState) (ws : List Req) (data : PostData) :
    RemoteState × List Req × Option PyErr :=
  match (postsBySlug st.posts data.slug).head? with
  | some p => (st, ws ++ [Req.updatePost p.id data], none)
  | none =>
      ({ st with posts := st.posts ++ [⟨st.nextId, data.slug⟩],
                 nextId := st.nextId + 1 },
       ws ++ [Req.createPost data], none)

/-- The slug default of line 79: a missing slug falls back to the
slugified title, itself defaulting to the path's stem. -/
def loadSlug (meta : YamlMeta) (path : String) : String :=
  meta.slug.getD (slugify (meta.title.getD (stem path)))

/-- The title default of line 84: a missing title falls back to the
path's stem. -/
def loadTitle (meta : YamlMeta) (path : String) : String :=
  meta.title.getD (stem path)

/-- The status default of line 87. -/
def loadStatus (meta : YamlMeta) : String :=
  meta.status.getD "draft"

/-- `process_md_file` (lines 66-113): extract frontmatter (the YAML
parser `yaml` and Markdown renderer `render` are external), apply the
title/slug/status defaults, resolve categories and tags when their keys
are present, upload a declared featured image (whose absence on disk
raises), and create or update the post by slug.  The third component
records a raised, uncaught exception; requests already sent before the
raise are kept in the trace. -/
def process_md_file (yaml : String → YamlMeta) (render : String → String)
    (fs : List String) (st : RemoteState) (path text : String) :
    RemoteState × List Req × Option PyErr :=
  match extractFM text with
  | .error e => (st, [], some e)
  | .ok (fmOpt, content) =>
      let meta : YamlMeta := match fmOpt with
        | some fm => yaml fm
        | none => {}
      let md := match fmOpt with
        | some _ => strip content
        | none => text
      let html := render md
      let data0 : PostData :=
        { title := loadTitle meta path, slug := loadSlug meta path,
          content := html, status := loadStatus meta,
          categories := none, tagIds := none, featuredMedia := none }
      let (data1, st1, r1) :=
        match meta.cats with
        | some cs =>
            let (ids, st1, r1) := resolveTerms "categories" st cs
            ({ data0 with categories := some ids }, st1, r1)
        | none => (data0, st, [])
      let (data2, st2, r2) :=
        match meta.tagNames with
        | some ts =>
            let (ids, st2, r2) := resolveTerms "tags" st1 ts
            ({ data1 with tagIds := some ids }, st2, r2)
        | none => (data1, st1, [])
      match meta.featured_image with
      | some fi =>
          match wp_upload_media st2 fs ("content/images/" ++ fi) with
          | .error e => (st2, r1 ++ r2, some e)
          | .ok (mid, st3, r3) =>
              finishPost st3 (r1 ++ r2 ++ r3) { data2 with featuredMedia := some mid }
      | none => finishPost st2 (r1 ++ r2) data2

/-- `main` (lines 120-123): process every Markdown file in order.  There
is no per-file exception handler, so a raised exception ends the loop;
requests of the remaining files are never sent. -/
def mainRoot (yaml : String → YamlMeta) (render : String → String)
    (fs : List String) (st : RemoteState) :
    List (String × String) → RemoteState × List Req × Option PyErr
  | [] => (st, [], none)
  | (path, text) :: rest =>
      let p := process_md_file yaml render fs st path text
      match p.2.2 with
      | some e => (p.1, p.2.1, some e)
      | none =>
          let m := mainRoot yaml render fs p.1 rest
          (m.1, p.2.1 ++ m.2.1, m.2.2)

end RootVar

/-! ## src/scripts/publish_to_wp.py (strict flat-file variant) -/

namespace Strict

/-- `process_markdown` (lines 43-56): extract frontmatter, parse it with
the external YAML parser, and render the body with the external Markdown
renderer. -/
def process_markdown (yaml : String → YamlMeta) (render : String → String)
    (text : String) : Except PyErr (YamlMeta × String) :=
  match extractFM text with
  | .error e => .error e
  | .ok (fmOpt, content) =>
      let meta : YamlMeta := match fmOpt with
        | some fm => yaml fm
        | none => {}
      let md := match fmOpt with
        | some _ => content
        | none => text
      .ok (meta, render md)

/-- `find_existing_post` (lines 22-27): query posts by slug and take the
first result's id, if any. -/
def find_existing_post (st : RemoteState) (slug : String) : Option Nat :=
  ((postsBySlug st.posts slug).head?).map (·.id)

/-- The `post_data` dict of `publish_post` (lines 63-68): this variant
sends only title, slug, content and status; a missing title defaults to
the slug and a missing status to "draft". -/
def buildPostData (meta : YamlMeta) (html : String) : PostData :=
  let slug := meta.slug.getD ""
  { title := meta.title.getD slug, slug := slug, content := html,
    status := meta.status.getD "draft",
    categories := none, tagIds := none, featuredMedia := none }

/-- `publish_post` (lines 59-86): assemble the post body and create or
update by slug.  `main` only calls it when a slug is present. -/
def publish_post (st : RemoteState) (meta : YamlMeta) (html : String) :
    RemoteState × Req :=
  let slug := meta.slug.getD ""
  let post_data := buildPostData meta html
  match find_existing_post st slug with
  | some pid => (st, Req.updatePost pid post_data)
  | none =>
      ({ st with posts := st.posts ++ [⟨st.nextId, slug⟩],
                 nextId := st.nextId + 1 },
       Req.createPost post_data)

/-- `main` (lines 91-102): process each file; a file whose frontmatter
lacks a slug is logged and skipped with `continue`; a raised exception
(there is no handler) ends the loop. -/
def mainStrict (yaml : String → YamlMeta) (render : String → String)
    (st : RemoteState) :
    List (String × String) → RemoteState × List Req × Option PyErr
  | [] => (st, [], none)
  | (_, text) :: rest =>
      match process_markdown yaml render text with
      | .error e => (st, [], some e)
      | .ok mh =>
          if mh.1.slug.isNone then
            mainStrict yaml render st rest
          else
            let pr := publish_post st mh.1 mh.2
            let m := mainStrict yaml render pr.1 rest
            (m.1, pr.2 :: m.2.1, m.2.2)

end Strict

/-! ## Fixtures: concrete inputs used by witnesses and counterexamples -/

deriving instance DecidableEq for Except

/-- The identity Markdown renderer, a concrete instance of the external
renderer parameter. -/
def idRender : String → String := fun s => s

/-- A concrete YAML parser returning an empty mapping. -/
def yamlEmpty : String → YamlMeta := fun _ => {}

/-- A remote state whose categories hold one term named "Golang". -/
def stGo : RemoteState := ⟨[⟨7, "Golang", "systems posts"⟩], [], [], [], 100⟩

/-- A remote state whose tags hold one term named "Golang". -/
def stGoTag : RemoteState := ⟨[], [⟨9, "Golang", "tagged"⟩], [], [], 50⟩

/-- A remote state whose media library holds one item titled
"old-diagram.png". -/
def stMedia : RemoteState := ⟨[], [], [⟨5, "old-diagram.png", "u5"⟩], [], 100⟩

/-- A post record with slug "hello", no images and no taxonomy specs. -/
def recHello : Publish.Record :=
  { root := "content/hello", pm := { title := some "T", slug := some "hello" },
    content := "body", dirFiles := [] }

/-- A remote state already holding a post with slug "hello". -/
def stHello : RemoteState := ⟨[], [], [], [⟨1, "hello"⟩], 2⟩

/-- An empty remote state. -/
def stEmpty : RemoteState := ⟨[], [], [], [], 1⟩

/-- A frontmatter mapping declaring only a featured image. -/
def metaFI : YamlMeta := { featured_image := some "img.jpg" }

/-- A concrete YAML parser returning `metaFI`. -/
def yamlFI : String → YamlMeta := fun _ => metaFI

/-! ## Helper definitions and lemmas for the reconciliation invariant -/

/-- Some stored post carries slug `s`. -/
def hasSlug (ps : List WPost) (s : String) : Bool :=
  ps.any fun p => p.slug == s

/-- 1 while no remote post with slug `s` exists, 0 afterwards: the budget
of create-post requests still allowed for slug `s`. -/
def potential (s : String) (st : RemoteState) : Nat :=
  if hasSlug st.posts s then 0 else 1

lemma createsFor_append (s : String) (a b : List Req) :
    createsFor s (a ++ b) = createsFor s a + createsFor s b :=
  List.countP_append _ _ _

lemma hasSlug_append (ps qs : List WPost) (s : String) :
    hasSlug (ps ++ qs) s = (hasSlug ps s || hasSlug qs s) := by
  simp [hasSlug, List.any_append]

lemma potential_congr {st1 st2 : RemoteState} (s : String)
    (h : st1.posts = st2.posts) : potential s st1 = potential s st2 := by
  unfold potential hasSlug
  rw [h]

lemma potential_le_one (s : String) (st : RemoteState) : potential s st ≤ 1 := by
  unfold potential
  split <;> omega

namespace Publish

lemma ensure_category_posts (st : RemoteState) (c : CatSpec) :
    ((ensure_category st c).2.1).posts = st.posts := by
  unfold ensure_category
  rcases hc : catFields c with ⟨n, d, i⟩
  cases h : searchTerms st.categories n <;> simp [h] <;> split <;> simp

lemma ensure_tag_posts (st : RemoteState) (t : CatSpec) :
    ((ensure_tag st t).2.1).posts = st.posts := by
  unfold ensure_tag
  rcases hc : catFields t with ⟨n, d, i⟩
  cases h : searchTerms st.tags n <;> simp [h] <;> split <;> simp

lemma upload_image_posts (st : RemoteState) (fs : List String) (p : String) :
    ((upload_image st fs p).2.1).posts = st.posts := by
  unfold upload_image
  cases h : wp_find_existing_image st (basename p) <;> simp [h] <;> split <;> simp

lemma resolveFeatured_posts (fs : List String) (rec : Record) (st : RemoteState) :
    ((resolveFeatured fs rec st).2.1).posts = st.posts := by
  unfold resolveFeatured
  split
  · simp [upload_image_posts]
  · rfl

lemma uploadLoop_posts (fs : List String) (root : String) :
    ∀ (imgs : List String) (st : RemoteState) (fmid : Option Nat) (raw : String),
      ((uploadLoop fs root st fmid raw imgs).2.2.1).posts = st.posts := by
  intro imgs
  induction imgs with
  | nil => intro st fmid raw; rfl
  | cons img rest ih =>
      intro st fmid raw
      by_cases h : isImage img
      · cases hu : (upload_image st fs (root ++ "/" ++ img)).1 with
        | none =>
            simp only [uploadLoop, h, if_true, hu, ih]
            exact upload_image_posts st fs _
        | some v =>
            rcases v with ⟨mid, url⟩
            simp only [uploadLoop, h, if_true, hu, ih]
            exact upload_image_posts st fs _
      · simp [uploadLoop, h, ih]

lemma ensureCats_posts (cs : List CatSpec) :
    ∀ st : RemoteState, ((ensureCats st cs).2.1).posts = st.posts := by
  induction cs with
  | nil => intro st; rfl
  | cons c rest ih =>
      intro st
      simp only [ensureCats, ih, ensure_category_posts]

lemma ensureTags_posts (ts : List CatSpec) :
    ∀ st : RemoteState, ((ensureTags st ts).2.1).posts = st.posts := by
  induction ts with
  | nil => intro st; rfl
  | cons t rest ih =>
      intro st
      simp only [ensureTags, ih, ensure_tag_posts]

lemma resolveAll_posts (render : String → String) (fs : List String)
    (rec : Record) (st : RemoteState) :
    ((resolveAll render fs rec st).2.1).posts = st.posts := by
  unfold resolveAll
  simp only [ensureTags_posts, ensureCats_posts, uploadLoop_posts,
    resolveFeatured_posts]

lemma ensure_category_creates (s : String) (st : RemoteState) (c : CatSpec) :
    createsFor s ((ensure_category st c).2.2) = 0 := by
  unfold ensure_category
  rcases hc : catFields c with ⟨n, d, i⟩
  cases h : searchTerms st.categories n <;> simp [h, createsFor] <;>
    (try split) <;> simp [createsFor]

lemma ensure_tag_creates (s : String) (st : RemoteState) (t : CatSpec) :
    createsFor s ((ensure_tag st t).2.2) = 0 := by
  unfold ensure_tag
  rcases hc : catFields t with ⟨n, d, i⟩
  cases h : searchTerms st.tags n <;> simp [h, createsFor] <;>
    (try split) <;> simp [createsFor]

lemma upload_image_creates (s : String) (st : RemoteState) (fs : List String)
    (p : String) : createsFor s ((upload_image st fs p).2.2) = 0 := by
  unfold upload_image
  cases h : wp_find_existing_image st (basename p) <;> simp [h, createsFor] <;>
    (try split) <;> simp [createsFor]

lemma resolveFeatured_creates (s : String) (fs : List String) (rec : Record)
    (st : RemoteState) : createsFor s ((resolveFeatured fs rec st).2.2) = 0 := by
  unfold resolveFeatured
  split
  · rw [createsFor_append, upload_image_creates]
    split <;> simp [createsFor]
  · rfl

lemma uploadLoop_creates (s : String) (fs : List String) (root : String) :
    ∀ (imgs : List String) (st : RemoteState) (fmid : Option Nat) (raw : String),
      createsFor s ((uploadLoop fs root st fmid raw imgs).2.2.2) = 0 := by
  intro imgs
  induction imgs with
  | nil => intro st fmid raw; rfl
  | cons img rest ih =>
      intro st fmid raw
      by_cases h : isImage img
      · cases hu : (upload_image st fs (root ++ "/" ++ img)).1 with
        | none =>
            simp only [uploadLoop, h, if_true, hu, createsFor_append, ih,
              upload_image_creates]
        | some v =>
            rcases v with ⟨mid, url⟩
            simp only [uploadLoop, h, if_true, hu, createsFor_append, ih,
              upload_image_creates]
      · simp [uploadLoop, h, ih]

lemma ensureCats_creates (s : String) (cs : List CatSpec) :
    ∀ st : RemoteState, createsFor s ((ensureCats st cs).2.2) = 0 := by
  induction cs with
  | nil => intro st; rfl
  | cons c rest ih =>
      intro st
      simp only [ensureCats, createsFor_append, ih, ensure_category_creates]

lemma ensureTags_creates (s : String) (ts : List CatSpec) :
    ∀ st : RemoteState, createsFor s ((ensureTags st ts).2.2) = 0 := by
  induction ts with
  | nil => intro st; rfl
  | cons t rest ih =>
      intro st
      simp only [ensureTags, createsFor_append, ih, ensure_tag_creates]

lemma resolveAll_creates (s : String) (render : String → String)
    (fs : List String) (rec : Record) (st : RemoteState) :
    createsFor s ((resolveAll render fs rec st).2.2) = 0 := by
  unfold resolveAll
  simp only [createsFor_append, ensureTags_creates, ensureCats_creates,
    uploadLoop_creates, resolveFeatured_creates]

lemma find_existing_post_none_iff (st : RemoteState) (s : String) :
    find_existing_post st s = none ↔ hasSlug st.posts s = false := by
  unfold find_existing_post hasSlug postsBySlug
  induction st.posts with
  | nil => simp
  | cons p ps ih =>
      by_cases h : p.slug == s <;> simp [List.filter_cons, h, ih]

/-- Each processed post consumes at most the remaining create budget for
any slug `s`: the requests it sends contain a create for `s` only if no
remote post with slug `s` existed, and afterwards one does. -/
lemma processPost_step (render : String → String) (fs : List String)
    (rec : Record) (st : RemoteState) (s : String) :
    createsFor s (processPost render fs rec st).2 +
      potential s (processPost render fs rec st).1 ≤ potential s st := by
  have hposts := resolveAll_posts render fs rec st
  have hcr := resolveAll_creates s render fs rec st
  unfold processPost
  cases hf : find_existing_post (resolveAll render fs rec st).2.1
      (resolveAll render fs rec st).1.slug with
  | some pid =>
      simp only [hf, createsFor_append, hcr]
      have h1 : createsFor s [Req.updatePost pid (resolveAll render fs rec st).1]
          = 0 := by simp [createsFor]
      rw [h1, potential_congr s hposts]
      omega
  | none =>
      have hnone : hasSlug (resolveAll render fs rec st).2.1.posts
          (resolveAll render fs rec st).1.slug = false :=
        (find_existing_post_none_iff _ _).mp hf
      rw [hposts] at hnone
      simp only [hf, createsFor_append, hcr]
      by_cases hs : (resolveAll render fs rec st).1.slug == s
      · have hseq : (resolveAll render fs rec st).1.slug = s := by
          exact eq_of_beq hs
        have h1 : createsFor s [Req.createPost (resolveAll render fs rec st).1]
            = 1 := by simp [createsFor, hs]
        have h2 : potential s
            { (resolveAll render fs rec st).2.1 with
              posts := (resolveAll render fs rec st).2.1.posts ++
                [⟨(resolveAll render fs rec st).2.1.nextId,
                  (resolveAll render fs rec st).1.slug⟩],
              nextId := (resolveAll render fs rec st).2.1.nextId + 1 } = 0 := by
          unfold potential
          rw [hasSlug_append]
          simp [hasSlug, hs]
        have h3 : potential s st = 1 := by
          unfold potential
          rw [← hseq, hnone]
          simp
        rw [h1, h2, h3]
      · have h1 : createsFor s [Req.createPost (resolveAll render fs rec st).1]
            = 0 := by simp [createsFor, hs]
        have h2 : potential s
            { (resolveAll render fs rec st).2.1 with
              posts := (resolveAll render fs rec st).2.1.posts ++
                [⟨(resolveAll render fs rec st).2.1.nextId,
                  (resolveAll render fs rec st).1.slug⟩],
              nextId := (resolveAll render fs rec st).2.1.nextId + 1 } =
            potential s st := by
          unfold potential
          rw [hasSlug_append]
          simp only [hasSlug, List.any_cons, List.any_nil, hs, Bool.or_false]
          rw [hposts]
        rw [h1, h2]
        omega

/-- One full run over the content tree consumes at most the remaining
create budget for any slug. -/
lemma processSeq_step (render : String → String) (fs : List String)
    (recs : List Record) : ∀ (st : RemoteState) (s : String),
    createsFor s (processSeq render fs st recs).2 +
      potential s (processSeq render fs st recs).1 ≤ potential s st := by
  induction recs with
  | nil =>
      intro st s
      simp [processSeq, createsFor]
  | cons r rs ih =>
      intro st s
      have h1 := processPost_step render fs r st s
      have h2 := ih (processPost render fs r st).1 s
      simp only [processSeq, createsFor_append]
      omega

/-- Repeated runs on the unchanged tree consume at most the remaining
create budget for any slug. -/
lemma runs_step (render : String → String) (fs : List String)
    (tree : List Record) : ∀ (n : Nat) (st : RemoteState) (s : String),
    createsFor s (runs render fs tree n st).2 +
      potential s (runs render fs tree n st).1 ≤ potential s st := by
  intro n
  induction n with
  | zero =>
      intro st s
      simp [runs, createsFor]
  | succ n ih =>
      intro st s
      have h1 := processSeq_step render fs tree st s
      have h2 := ih (processSeq render fs st tree).1 s
      simp only [runs, createsFor_append]
      omega

lemma mkPostData_categories (t sl stt h : String) (cats tags : List Nat)
    (fm : Option Nat) : (mkPostData t sl stt h cats tags fm).categories =
      some cats := by
  unfold mkPostData
  split <;> rfl

lemma mkPostData_tagIds (t sl stt h : String) (cats tags : List Nat)
    (fm : Option Nat) : (mkPostData t sl stt h cats tags fm).tagIds =
      some tags := by
  unfold mkPostData
  split <;> rfl

lemma mkPostData_featured_ne_zero (t sl stt h : String) (cats tags : List Nat)
    (fm : Option Nat) (m : Nat)
    (hm : (mkPostData t sl stt h cats tags fm).featuredMedia = some m) :
    m ≠ 0 := by
  unfold mkPostData at hm
  cases fm with
  | none => simp [truthyN] at hm
  | some k =>
      by_cases hk : k = 0
      · simp [truthyN, hk] at hm
      · simp [truthyN, hk] at hm
        omega

end Publish

lemma findOcc_prefix (sep xs : List Char) (h : sep.isPrefixOf xs = true) :
    findOcc sep xs = some 0 := by
  cases xs <;> simp [findOcc, h]

lemma findOcc_none (sep : List Char) (hne : sep ≠ []) :
    ∀ xs : List Char,
      (∀ i < xs.length, sep.isPrefixOf (xs.drop i) = false) →
      findOcc sep xs = none := by
  intro xs
  induction xs with
  | nil =>
      intro _
      cases sep with
      | nil => exact absurd rfl hne
      | cons a as => simp [findOcc, List.isPrefixOf]
  | cons c cs ih =>
      intro h
      have h0 := h 0 (by simp)
      simp only [List.drop_zero] at h0
      have hrest : findOcc sep cs = none := by
        apply ih
        intro i hi
        have := h (i + 1) (by simp; omega)
        simpa using this
      simp [findOcc, h0, hrest]

/-! ## Claims -/

/-- C1 (counterexample): with a remote term named "Golang" and a spec
named "Go" — a proper substring of the existing name — every term lookup
(categories via `ensure_category`, tags via `ensure_tag`, and both
taxonomies of the flat-file `wp_get_or_create_term`) reuses the existing
term's id, sends no request, and creates no new term, contradicting the
claim that only a case-insensitive exact name match is reused. -/
theorem C1_counterexample :
    searchTerms stGo.categories "Go" = [⟨7, "Golang", "systems posts"⟩] ∧
    Publish.ensure_category stGo (.plain "Go") = (7, stGo, []) ∧
    Publish.ensure_tag stGoTag (.plain "Go") = (9, stGoTag, []) ∧
    RootVar.wp_get_or_create_term stGoTag "Go" "tags" = (9, stGoTag, []) ∧
    RootVar.wp_get_or_create_term stGo "Go" "categories" = (7, stGo, []) ∧
    ("Golang" : String) ≠ "Go" := by
  decide

/-- C1 (amended): for every taxonomy and every variant, the term resolver
reuses the id of the first term returned by the remote substring search
whenever the search result is non-empty — regardless of whether that
term's name equals the spec's name — and only creates a new term when the
search returns nothing: so for `ensure_category` over categories, for
`ensure_tag` over tags, and for the flat-file `wp_get_or_create_term`
over whichever taxonomy its string selects. -/
theorem C1_term_lookup_takes_first_search_hit :
    (∀ (st : RemoteState) (c : Publish.CatSpec),
      (∀ t ts, searchTerms st.categories (Publish.catFields c).1 = t :: ts →
        (Publish.ensure_category st c).1 = t.id ∧
        ∀ tax n d,
          Req.createTerm tax n d ∉ (Publish.ensure_category st c).2.2) ∧
      (searchTerms st.categories (Publish.catFields c).1 = [] →
        (Publish.ensure_category st c).2.2 =
          [Req.createTerm "categories" (Publish.catFields c).1
            (Publish.catFields c).2.1])) ∧
    (∀ (st : RemoteState) (g : Publish.CatSpec),
      (∀ t ts, searchTerms st.tags (Publish.catFields g).1 = t :: ts →
        (Publish.ensure_tag st g).1 = t.id ∧
        ∀ tax n d, Req.createTerm tax n d ∉ (Publish.ensure_tag st g).2.2) ∧
      (searchTerms st.tags (Publish.catFields g).1 = [] →
        (Publish.ensure_tag st g).2.2 =
          [Req.createTerm "tags" (Publish.catFields g).1
            (Publish.catFields g).2.1])) ∧
    (∀ (st : RemoteState) (name taxonomy : String),
      (∀ t ts, searchTerms
          (if taxonomy == "categories" then st.categories else st.tags) name =
            t :: ts →
        (RootVar.wp_get_or_create_term st name taxonomy).1 = t.id ∧
        (RootVar.wp_get_or_create_term st name taxonomy).2.2 = []) ∧
      (searchTerms
          (if taxonomy == "categories" then st.categories else st.tags) name =
            [] →
        (RootVar.wp_get_or_create_term st name taxonomy).2.2 =
          [Req.createTerm taxonomy name ""])) := by
  refine ⟨fun st c => ⟨?_, ?_⟩, fun st g => ⟨?_, ?_⟩, fun st name tax => ⟨?_, ?_⟩⟩
  · rcases hc : Publish.catFields c with ⟨n, d, i⟩
    intro t ts h
    unfold Publish.ensure_category
    rw [hc]
    simp only [h]
    constructor
    · split <;> rfl
    · intro tx nm ds
      split <;> simp
  · rcases hc : Publish.catFields c with ⟨n, d, i⟩
    intro h
    unfold Publish.ensure_category
    rw [hc]
    simp only [h]
  · rcases hg : Publish.catFields g with ⟨n, d, i⟩
    intro t ts h
    unfold Publish.ensure_tag
    rw [hg]
    simp only [h]
    constructor
    · split <;> rfl
    · intro tx nm ds
      split <;> simp
  · rcases hg : Publish.catFields g with ⟨n, d, i⟩
    intro h
    unfold Publish.ensure_tag
    rw [hg]
    simp only [h]
  · intro t ts h
    simp only [beq_iff_eq] at h
    unfold RootVar.wp_get_or_create_term
    simp [h]
  · intro h
    simp only [beq_iff_eq] at h
    unfold RootVar.wp_get_or_create_term
    simp [h]

/-- C1 (witness): the amended theorem applied to the "Golang" states, for
the categories resolver, the tags resolver, and both taxonomy strings of
the flat-file lookup. -/
theorem C1_witness :
    (Publish.ensure_category stGo (.plain "Go")).1 = 7 ∧
    (Publish.ensure_tag stGoTag (.plain "Go")).1 = 9 ∧
    (RootVar.wp_get_or_create_term stGoTag "Go" "tags").1 = 9 ∧
    (RootVar.wp_get_or_create_term stGo "Go" "categories").1 = 7 :=
  ⟨((C1_term_lookup_takes_first_search_hit.1 stGo (.plain "Go")).1
      ⟨7, "Golang", "systems posts"⟩ [] (by decide)).1,
   ((C1_term_lookup_takes_first_search_hit.2.1 stGoTag (.plain "Go")).1
      ⟨9, "Golang", "tagged"⟩ [] (by decide)).1,
   ((C1_term_lookup_takes_first_search_hit.2.2 stGoTag "Go" "tags").1
      ⟨9, "Golang", "tagged"⟩ [] (by decide)).1,
   ((C1_term_lookup_takes_first_search_hit.2.2 stGo "Go" "categories").1
      ⟨7, "Golang", "systems posts"⟩ [] (by decide)).1⟩

/-- C2: across any number of repeated runs of the publisher on an
unchanged content tree, with the remote state persisting between runs, at
most one create-post request is ever issued for any slug `s`; once a post
with slug `s` exists, every later reconciliation of that slug is an
update. -/
theorem C2_at_most_one_create_per_slug (render : String → String)
    (fs : List String) (tree : List Publish.Record) (n : Nat)
    (st : RemoteState) (s : String) :
    createsFor s (Publish.runs render fs tree n st).2 ≤ 1 := by
  have h := Publish.runs_step render fs tree n st s
  have h2 := potential_le_one s st
  omega

/-- C3 (counterexample): with a remote media item titled
"old-diagram.png" and a local image named "diagram.png" — whose title
does not equal the filename, which it merely contains — `upload_image`
returns the existing item's (id, url) without uploading, contradicting
the claim that only an exact title match is treated as a match. -/
theorem C3_counterexample :
    stMedia.media = [⟨5, "old-diagram.png", "u5"⟩] ∧
    Publish.upload_image stMedia [] "content/p/diagram.png" =
      (some (5, "u5"), stMedia, []) ∧
    ("old-diagram.png" : String) ≠ "diagram.png" := by
  decide

/-- C3 (amended): `upload_image` treats the first result of the remote
media substring search as the match, with no title-equality filter: when
the search returns any result it returns that result's (id, url), sends
no request, and leaves the remote state unchanged. -/
theorem C3_media_lookup_takes_first_search_hit (st : RemoteState)
    (fs : List String) (path : String) (m : Media) (ms : List Media) :
    searchMediaBy st.media (basename path) = m :: ms →
    Publish.upload_image st fs path = (some (m.id, m.sourceUrl), st, []) := by
  intro h
  simp [Publish.upload_image, Publish.wp_find_existing_image, h]

/-- C3 (witness): the amended theorem applied to the "old-diagram.png"
state. -/
theorem C3_witness :
    Publish.upload_image stMedia [] "content/p/diagram.png" =
      (some (5, "u5"), stMedia, []) :=
  C3_media_lookup_takes_first_search_hit stMedia [] "content/p/diagram.png"
    ⟨5, "old-diagram.png", "u5"⟩ [] (by decide)

/-- C4: the upload content type is `image/jpeg` only for filenames ending
in ".jpg"; a filename ending in ".jpeg" — which the image loop of
scripts/publish.py itself accepts as an image — is uploaded as
`image/png`, against the spec's `.jpg/.jpeg → image/jpeg` rule. -/
theorem C4_jpeg_uploaded_as_png :
    contentTypeFor "cover.jpeg" = "image/png" ∧
    Publish.isImage "cover.jpeg" = true := by
  decide

/-- C5 (counterexample): a post with no images whose slug already exists
remotely is updated with a body that carries no featured-media id at all
— title, content, status, category ids and tag ids are sent, but the
claimed "featured-media id together in the same request" is absent. -/
theorem C5_counterexample :
    (Publish.resolveAll idRender [] recHello stHello).1.featuredMedia = none ∧
    (Publish.processPost idRender [] recHello stHello).2 =
      [Req.updatePost 1 (Publish.resolveAll idRender [] recHello stHello).1] := by
  decide

/-- C5 (amended): whenever an existing post is found by slug, the single
update request carries the full assembled body: title, content, status,
category ids and tag ids are always present, and a featured-media id is
present exactly when one was resolved truthy (never the id 0). -/
theorem C5_update_request_fields (render : String → String)
    (fs : List String) (rec : Publish.Record) (st : RemoteState) (pid : Nat) :
    Publish.find_existing_post (Publish.resolveAll render fs rec st).2.1
      (Publish.resolveAll render fs rec st).1.slug = some pid →
    (Publish.processPost render fs rec st).2 =
      (Publish.resolveAll render fs rec st).2.2 ++
        [Req.updatePost pid (Publish.resolveAll render fs rec st).1] ∧
    (Publish.resolveAll render fs rec st).1.categories.isSome = true ∧
    (Publish.resolveAll render fs rec st).1.tagIds.isSome = true ∧
    ∀ m, (Publish.resolveAll render fs rec st).1.featuredMedia = some m →
      m ≠ 0 := by
  intro hf
  refine ⟨?_, ?_, ?_, ?_⟩
  · unfold Publish.processPost
    simp only [hf]
  · show (Publish.resolveAll render fs rec st).1.categories.isSome = true
    unfold Publish.resolveAll
    simp only [Publish.mkPostData_categories, Option.isSome_some]
  · show (Publish.resolveAll render fs rec st).1.tagIds.isSome = true
    unfold Publish.resolveAll
    simp only [Publish.mkPostData_tagIds, Option.isSome_some]
  · intro m hm
    unfold Publish.resolveAll at hm
    exact Publish.mkPostData_featured_ne_zero _ _ _ _ _ _ _ _ hm

/-- C5 (witness): the amended theorem applied to the "hello" record
against a state already holding post id 1 with slug "hello". -/
theorem C5_witness :
    (Publish.processPost idRender [] recHello stHello).2 =
      (Publish.resolveAll idRender [] recHello stHello).2.2 ++
        [Req.updatePost 1 (Publish.resolveAll idRender [] recHello stHello).1] :=
  (C5_update_request_fields idRender [] recHello stHello 1 (by decide)).1

/-- C6 (counterexample): in the flat-file variant, a first file with an
unterminated frontmatter delimiter raises an uncaught `ValueError` and
the run stops: the second, well-formed file — which on its own produces a
non-empty request trace — is never processed, contradicting the claim
that a single post's failure does not abort the remaining posts. -/
theorem C6_counterexample :
    RootVar.mainRoot yamlEmpty idRender [] stEmpty
      [("content/a.md", "---\nbroken"), ("content/b.md", "hello")] =
      (stEmpty, [], some .valueError) ∧
    (RootVar.mainRoot yamlEmpty idRender [] stEmpty
      [("content/b.md", "hello")]).2.1 ≠ [] := by
  decide

/-- C6 (amended): the main loop has no per-post exception handler: when
processing a file raises (malformed frontmatter, missing featured image),
the run ends with exactly the requests sent up to that point and none of
the remaining files are processed. -/
theorem C6_uncaught_error_aborts_run (yaml : String → YamlMeta)
    (render : String → String) (fs : List String) (st : RemoteState)
    (path text : String) (rest : List (String × String)) (e : PyErr) :
    (RootVar.process_md_file yaml render fs st path text).2.2 = some e →
    RootVar.mainRoot yaml render fs st ((path, text) :: rest) =
      ((RootVar.process_md_file yaml render fs st path text).1,
       (RootVar.process_md_file yaml render fs st path text).2.1,
       some e) := by
  intro h
  unfold RootVar.mainRoot
  simp only [h]

/-- C6 (witness): the amended theorem applied to a run whose first file
has an unterminated frontmatter delimiter. -/
theorem C6_witness :
    RootVar.mainRoot yamlEmpty idRender [] stEmpty
      [("content/a.md", "---\nbroken"), ("content/b.md", "hello")] =
      ((RootVar.process_md_file yamlEmpty idRender [] stEmpty
          "content/a.md" "---\nbroken").1,
       (RootVar.process_md_file yamlEmpty idRender [] stEmpty
          "content/a.md" "---\nbroken").2.1,
       some PyErr.valueError) :=
  C6_uncaught_error_aborts_run yamlEmpty idRender [] stEmpty
    "content/a.md" "---\nbroken" [("content/b.md", "hello")]
    PyErr.valueError (by decide)

/-- C7: in the strict variant, a file that parses to a frontmatter
mapping with no slug key is skipped — the run over it equals the run over
the remaining files alone, so no create or update request is issued for
it and processing continues. -/
theorem C7_missing_slug_skipped (yaml : String → YamlMeta)
    (render : String → String) (st : RemoteState) (path text : String)
    (rest : List (String × String)) (meta : YamlMeta) (html : String) :
    Strict.process_markdown yaml render text = .ok (meta, html) →
    meta.slug = none →
    Strict.mainStrict yaml render st ((path, text) :: rest) =
      Strict.mainStrict yaml render st rest := by
  intro h1 h2
  unfold Strict.mainStrict
  simp only [h1, h2, Option.isNone_none, if_true]
  rcases rest with _ | ⟨⟨p2, t2⟩, r2⟩ <;> rfl

/-- C7 (witness): a frontmatter-free file (whose mapping has no slug) is
skipped and the run continues as if it were absent. -/
theorem C7_witness :
    Strict.process_markdown yamlEmpty idRender "hello" =
      .ok ({}, "hello") ∧
    Strict.mainStrict yamlEmpty idRender stEmpty [("a.md", "hello")] =
      Strict.mainStrict yamlEmpty idRender stEmpty [] :=
  ⟨by decide,
   C7_missing_slug_skipped yamlEmpty idRender stEmpty "a.md" "hello" []
     {} "hello" (by decide) rfl⟩

/-- C8 (counterexample): in the flat-file variant, a file
"content/post.md" with empty frontmatter gets slug "post" — the slugified
filename stem — not "content", the name of its containing directory, so
the claimed slug default does not hold for every loaded record. -/
theorem C8_counterexample :
    RootVar.loadSlug {} "content/post.md" = "post" ∧
    containingDirName "content/post.md" = "content" ∧
    ("post" : String) ≠ "content" := by
  decide

/-- C8 (amended): per variant — the directory-walk loader defaults a
missing title to "Untitled", a missing slug to the directory's basename
and a missing status to "draft"; the flat-file loader defaults a missing
title to the filename stem, a missing slug to the slugified title (itself
defaulting to the stem) and a missing status to "draft"; the strict
loader defaults a missing title to the slug and a missing status to
"draft". -/
theorem C8_loader_defaults :
    (∀ (pm : Publish.Meta) (root : String),
      (pm.title = none → (Publish.loadFields pm root).1 = "Untitled") ∧
      (pm.slug = none → (Publish.loadFields pm root).2.1 = basename root) ∧
      (pm.status = none → (Publish.loadFields pm root).2.2 = "draft")) ∧
    (∀ (meta : YamlMeta) (path : String),
      (meta.title = none → RootVar.loadTitle meta path = stem path) ∧
      (meta.slug = none → RootVar.loadSlug meta path =
        slugify (meta.title.getD (stem path))) ∧
      (meta.status = none → RootVar.loadStatus meta = "draft")) ∧
    (∀ (meta : YamlMeta) (html : String),
      (meta.title = none →
        (Strict.buildPostData meta html).title = meta.slug.getD "") ∧
      (meta.status = none →
        (Strict.buildPostData meta html).status = "draft")) := by
  refine ⟨fun pm root => ⟨?_, ?_, ?_⟩, fun meta path => ⟨?_, ?_, ?_⟩,
    fun meta html => ⟨?_, ?_⟩⟩ <;> intro h <;>
    simp [Publish.loadFields, RootVar.loadTitle, RootVar.loadSlug,
      RootVar.loadStatus, Strict.buildPostData, h]

/-- C8 (witness): the amended theorem applied across the variants at
concrete empty frontmatter. -/
theorem C8_witness :
    (Publish.loadFields {} "content/hello").1 = "Untitled" ∧
    (Publish.loadFields {} "content/hello").2.1 = basename "content/hello" ∧
    RootVar.loadStatus {} = "draft" ∧
    (Strict.buildPostData {} "h").title = (({} : YamlMeta).slug).getD "" :=
  ⟨(C8_loader_defaults.1 {} "content/hello").1 rfl,
   (C8_loader_defaults.1 {} "content/hello").2.1 rfl,
   (C8_loader_defaults.2.1 {} "p").2.2 rfl,
   (C8_loader_defaults.2.2 {} "h").1 rfl⟩

/-- C9 (counterexample): in the flat-file variant, a declared featured
image whose file is missing raises an uncaught `FileNotFoundError`: the
post is neither created nor updated and nothing is skipped-and-continued,
contradicting the claim that a missing local asset is non-fatal for every
image path. -/
theorem C9_counterexample :
    RootVar.process_md_file yamlFI idRender [] stEmpty "content/a.md"
      "---\nx\n---\nbody" = (stEmpty, [], some .fileNotFound) := by
  decide

/-- C9 (amended): in scripts/publish.py, a directory image that is
neither in the remote library nor on disk resolves to `(None, None)`,
which the image loop skips, continuing with the remaining images
unchanged — the flat-file variant instead aborts on a missing featured
image. -/
theorem C9_missing_image_skipped_in_walk_variant (fs : List String)
    (root : String) (st : RemoteState) (fmid : Option Nat) (raw img : String)
    (rest : List String) :
    Publish.isImage img = true →
    Publish.wp_find_existing_image st (basename (root ++ "/" ++ img)) = none →
    (root ++ "/" ++ img) ∉ fs →
    Publish.uploadLoop fs root st fmid raw (img :: rest) =
      Publish.uploadLoop fs root st fmid raw rest := by
  intro h1 h2 h3
  have hu : Publish.upload_image st fs (root ++ "/" ++ img) = (none, st, []) := by
    simp [Publish.upload_image, h2, h3]
  simp [Publish.uploadLoop, h1, hu]

/-- C9 (witness): the amended theorem applied to a missing
"missing.png". -/
theorem C9_witness :
    Publish.uploadLoop [] "content/p" stEmpty none "body" ["missing.png"] =
      Publish.uploadLoop [] "content/p" stEmpty none "body" [] :=
  C9_missing_image_skipped_in_walk_variant [] "content/p" stEmpty none
    "body" "missing.png" [] (by decide) (by decide) (by decide)

/-- C10 (counterexample): a text starting with "---" and containing
exactly one further occurrence of "---" — fewer than the two the claim
requires — is the ordinary well-formed frontmatter shape and parses
without error: the three-way split yields exactly three parts. -/
theorem C10_counterexample :
    dashes.isPrefixOf "---\na: 1\n---\nx".data = true ∧
    countOcc dashes ("---\na: 1\n---\nx".data.drop 3) = 1 ∧
    extractFM "---\na: 1\n---\nx" = .ok (some "\na: 1\n", "\nx") := by
  decide

/-- C10 (amended): for every text that starts with "---" and contains no
further occurrence of "---" after the opening delimiter, the three-way
split yields fewer than three parts and the unpack raises `ValueError`:
frontmatter extraction is not total on such inputs. -/
theorem C10_unterminated_frontmatter_raises (text : String) :
    dashes.isPrefixOf text.data = true →
    (∀ i < (text.data.drop 3).length,
      dashes.isPrefixOf ((text.data.drop 3).drop i) = false) →
    extractFM text = .error .valueError := by
  intro hpre hno
  have h0 : findOcc dashes text.data = some 0 := findOcc_prefix _ _ hpre
  have h1 : findOcc dashes (text.data.drop 3) = none :=
    findOcc_none dashes (by decide) _ hno
  have hd : dashes.length = 3 := rfl
  simp only [extractFM, hpre, if_true, pySplit, h0, h1, hd, List.take_zero,
    Nat.zero_add, eq_self_iff_true]

/-- C10 (witness): the amended theorem applied to "---abc". -/
theorem C10_witness :
    dashes.isPrefixOf "---abc".data = true ∧
    extractFM "---abc" = .error .valueError :=
  ⟨by decide,
   C10_unterminated_frontmatter_raises "---abc" (by decide) (by decide)⟩

end Blog
